import Mathlib

/-!
Shallow embedding of the rate-limit plugin in
`src/pisa-proxy/plugin/src/limit/mod.rs`.

Modelling conventions:
* The `regex` crate is abstracted: a compiled regex is a value of an arbitrary
  type `R`, pattern compilation is a parameter `compile : String → Option R`
  (`Regex::new` returns `Err` exactly when `compile` returns `none`), and
  matching is a parameter `isMatch : R → String → Bool` (`Regex::is_match`).
* `tokio::sync::Semaphore` is modelled by its available-permit count, a `Nat`:
  `try_acquire_owned` succeeds iff the count is positive, and
  `try_acquire_owned().forget()` decrements it by one (`forget` makes the
  permit permanently consumed); `Semaphore::new(n)` gives count `n`;
  `add_permits(1)` increments the count.
* `Instant` is modelled by a `Nat` timestamp: `Instant::now()` is a `now`
  parameter of each call, and `start.elapsed() > duration` is
  `now - t > duration` (truncated subtraction; real instants are monotone,
  so `t ≤ now` on every actual trace).
* Rust panics (`unwrap` on `Err`/`None`, out-of-bounds indexing) are modelled
  by an `Except` error value so that aborting executions stay observable.
-/

/-- `config::Limit` as used by this plugin: a pattern source string, a
capacity (`limit`) and a window duration. -/
structure LimitConfig where
  regex : String
  limit : Nat
  duration : Nat
deriving DecidableEq, Repr

/-- Runtime state of one rule: `LimitInstance` from the source. `permits` is
the available-permit count of the rule's `semaphore`; `limit_size` is the
configured capacity; `start_at` is the window-start timestamp. -/
structure LimitInstance (R : Type) where
  regex : R
  limit_size : Nat
  permits : Nat
  duration : Nat
  start_at : Option Nat
deriving DecidableEq, Repr

/-- The mutable state of a `Limit<S>` service: the optional rule table
(`instances: Option<Arc<Mutex<Vec<LimitInstance>>>>`). The wrapped inner
service is passed separately to `handle`. -/
structure Limit (R : Type) where
  instances : Option (List (LimitInstance R))
deriving DecidableEq, Repr

/-- Outcomes of table construction that end in an error. `panicked` models the
`Regex::new(&c.regex).unwrap()` panic on a pattern that fails to compile.
`invalidPattern` is the typed error `ConfigError::InvalidPattern` named by the
spec; the source never produces it (no such type exists in the code). -/
inductive ConstructionError where
  | panicked
  | invalidPattern
deriving DecidableEq, Repr

/-- Panics of `Limit::add_permits`: `unwrapNone` models
`self.instances.as_mut().unwrap()` on a missing table, `indexOutOfBounds`
models `instances[idx]` with `idx` out of range. -/
inductive PanicError where
  | unwrapNone
  | indexOutOfBounds
deriving DecidableEq, Repr

/-- The service error type: `BoxError` as produced by `Limit::handle`.
`limitPluginReject` is `PluginError::LimitPluginReject`; `inner e` is a
downstream handler error converted by `map_err(Into::into)`. -/
inductive BoxError (E : Type) where
  | limitPluginReject
  | inner (e : E)
deriving DecidableEq, Repr

/-- The loop body of `LimitLayer::create_instances`: compile each rule's
pattern (`Regex::new(&c.regex).unwrap()` — a compile failure panics), build a
semaphore with `c.limit` permits, and push
`LimitInstance { limit_size, regex, semaphore, duration, start_at: None }`. -/
def create_instances_list {R : Type} (compile : String → Option R) :
    List LimitConfig → Except ConstructionError (List (LimitInstance R))
  | [] => .ok []
  | c :: rest =>
    match compile c.regex with
    | none => .error .panicked
    | some r =>
      (create_instances_list compile rest).map
        (fun l =>
          { regex := r, limit_size := c.limit, permits := c.limit,
            duration := c.duration, start_at := none } :: l)

/-- `LimitLayer::create_instances`: `None` config yields no table; otherwise
build one instance per rule, in order. -/
def create_instances {R : Type} (compile : String → Option R) :
    Option (List LimitConfig) →
    Except ConstructionError (Option (List (LimitInstance R)))
  | none => .ok none
  | some cfgs => (create_instances_list compile cfgs).map some

/-- The body of `Limit::is_allow` for the first instance whose regex matches
the input (`idx` is its position):
* `start_at` is `None`: set `start_at = Some(now)`, then
  `semaphore.try_acquire_owned()`; on failure return `(Some(idx), false)`,
  on success `forget` the permit and return `(Some(idx), true)`.
* `start_at` is `Some(t)` and `now - t > duration`: window expired; set
  `start_at = None`, replace the semaphore by `Semaphore::new(limit_size)`,
  and return `(None, true)`.
* otherwise: `try_acquire_owned()` as above, without touching `start_at`. -/
def evalMatched {R : Type} (now idx : Nat) (c : LimitInstance R) :
    (Option Nat × Bool) × LimitInstance R :=
  match c.start_at with
  | none =>
    if c.permits = 0 then
      ((some idx, false), { c with start_at := some now })
    else
      ((some idx, true),
        { c with start_at := some now, permits := c.permits - 1 })
  | some t =>
    if now - t > c.duration then
      ((none, true), { c with start_at := none, permits := c.limit_size })
    else if c.permits = 0 then
      ((some idx, false), c)
    else
      ((some idx, true), { c with permits := c.permits - 1 })

/-- The scan loop of `Limit::is_allow`: instances whose regex does not match
are skipped (`continue`); the first match is decided by `evalMatched` and the
scan returns. The updated table is returned alongside the decision. -/
def is_allow_loop {R : Type} (isMatch : R → String → Bool) (now : Nat)
    (input : String) :
    Nat → List (LimitInstance R) → (Option Nat × Bool) × List (LimitInstance R)
  | _, [] => ((none, true), [])
  | idx, c :: rest =>
    if isMatch c.regex input then
      ((evalMatched now idx c).1, (evalMatched now idx c).2 :: rest)
    else
      ((is_allow_loop isMatch now input (idx + 1) rest).1,
        c :: (is_allow_loop isMatch now input (idx + 1) rest).2)

/-- `Limit::is_allow`: with no table (`instances` is `None`) every input gets
`(None, true)`; otherwise lock the table and run the scan loop from index 0. -/
def is_allow {R : Type} (isMatch : R → String → Bool) (now : Nat)
    (st : Limit R) (input : String) : (Option Nat × Bool) × Limit R :=
  match st.instances with
  | none => ((none, true), st)
  | some l =>
    ((is_allow_loop isMatch now input 0 l).1,
      ⟨some (is_allow_loop isMatch now input 0 l).2⟩)

/-- `Limit::add_permits`: `self.instances.as_mut().unwrap()` panics when there
is no table; `instances[idx]` panics when `idx` is out of bounds; otherwise
`semaphore.add_permits(1)` adds one available permit (with no upper bound at
`limit_size`). -/
def add_permits {R : Type} (st : Limit R) (idx : Nat) :
    Except PanicError (Limit R) :=
  match st.instances with
  | none => .error .unwrapNone
  | some l =>
    if h : idx < l.length then
      .ok ⟨some (l.set idx
        { l.get ⟨idx, h⟩ with permits := (l.get ⟨idx, h⟩).permits + 1 })⟩
    else
      .error .indexOutOfBounds

/-- `Limit::handle`: run `is_allow` on `input.as_ref()`; if allowed, call the
inner service on the original input and pair its output with the matched
index, converting an inner error with `Into::into`; if denied, return
`PluginError::LimitPluginReject` without calling the inner service. -/
def handle {R I E O : Type} (isMatch : R → String → Bool) (asRef : I → String)
    (now : Nat) (inner : I → Except E O) (st : Limit R) (input : I) :
    Except (BoxError E) (Option Nat × O) × Limit R :=
  let r := is_allow isMatch now st (asRef input)
  if r.1.2 then
    match inner input with
    | .ok out => (.ok (r.1.1, out), r.2)
    | .error e => (.error (.inner e), r.2)
  else
    (.error .limitPluginReject, r.2)

/-- One externally visible operation on a `Limit` service's rule state:
an admission-gate evaluation (`is_allow`, with the `Instant::now()` reading
and the request text) or a permit release (`add_permits idx`). -/
inductive Op where
  | eval (now : Nat) (input : String)
  | release (idx : Nat)
deriving DecidableEq, Repr

/-- Applying one operation to the rule state. A panic aborts the run. -/
def stepOp {R : Type} (isMatch : R → String → Bool) (st : Limit R) :
    Op → Except PanicError (Limit R)
  | .eval now input => .ok (is_allow isMatch now st input).2
  | .release idx => add_permits st idx

/-- Running a sequence of operations from a state. -/
def runOps {R : Type} (isMatch : R → String → Bool) (st : Limit R) :
    List Op → Except PanicError (Limit R)
  | [] => .ok st
  | op :: rest => (stepOp isMatch st op).bind (fun st' => runOps isMatch st' rest)

/-- Number of `release idx` operations in a sequence. -/
def countRelease (idx : Nat) : List Op → Nat
  | [] => 0
  | Op.release i :: rest => (if i = idx then 1 else 0) + countRelease idx rest
  | Op.eval _ _ :: rest => countRelease idx rest

/-- Whether an operation is a release. -/
def isRelease : Op → Bool
  | Op.release _ => true
  | Op.eval _ _ => false

/-- Concrete matcher used for witnesses: a "compiled regex" is just a string,
matching is string equality. -/
def eqMatch : String → String → Bool := fun r s => r == s

/-- Concrete compiler used for witnesses: every pattern except `"("` compiles
to itself; `"("` fails to compile (as it does under the real regex syntax). -/
def compileNoParen : String → Option String :=
  fun s => if s = "(" then none else some s

/-- `evalMatched` never changes the compiled regex, the window duration or the
configured capacity of an instance, and the resulting permit count is at most
`max permits limit_size` of the input instance. -/
theorem evalMatched_static {R : Type} (now idx : Nat) (c : LimitInstance R) :
    ((evalMatched now idx c).2).regex = c.regex ∧
    ((evalMatched now idx c).2).duration = c.duration ∧
    ((evalMatched now idx c).2).limit_size = c.limit_size ∧
    ((evalMatched now idx c).2).permits ≤ max c.permits c.limit_size := by
  rcases c with ⟨r, ls, p, d, sa⟩
  cases sa with
  | none =>
    by_cases hp : p = 0 <;> simp [evalMatched, hp]
  | some t =>
    by_cases hexp : now - t > d
    · simp [evalMatched, hexp]
    · by_cases hp : p = 0 <;> simp [evalMatched, hexp, hp]

/-- When `evalMatched` denies, the reported index is `some idx`. -/
theorem evalMatched_deny {R : Type} (now idx : Nat) (c : LimitInstance R)
    (h : (evalMatched now idx c).1.2 = false) :
    (evalMatched now idx c).1.1 = some idx := by
  rcases c with ⟨r, ls, p, d, sa⟩
  cases sa with
  | none => by_cases hp : p = 0 <;> simp [evalMatched, hp] at h ⊢
  | some t =>
    by_cases hexp : now - t > d
    · simp [evalMatched, hexp] at h
    · by_cases hp : p = 0 <;> simp [evalMatched, hexp, hp] at h ⊢

/-- The scan loop preserves the length of the table. -/
theorem is_allow_loop_length {R : Type} (isMatch : R → String → Bool)
    (now : Nat) (input : String) (l : List (LimitInstance R)) :
    ∀ idx : Nat, ((is_allow_loop isMatch now input idx l).2).length = l.length := by
  induction l with
  | nil => intro idx; rfl
  | cons c rest ih =>
    intro idx
    by_cases h : isMatch c.regex input <;> simp [is_allow_loop, h, ih]

/-- If no instance's regex matches the input, the scan loop returns
`(None, true)` and leaves the table unchanged. -/
theorem is_allow_loop_no_match {R : Type} (isMatch : R → String → Bool)
    (now : Nat) (input : String) (l : List (LimitInstance R)) :
    ∀ idx : Nat, (∀ k c, l.get? k = some c → isMatch c.regex input = false) →
      is_allow_loop isMatch now input idx l = ((none, true), l) := by
  induction l with
  | nil => intro idx _; rfl
  | cons c rest ih =>
    intro idx hnm
    have h0 : isMatch c.regex input = false := hnm 0 c rfl
    have ih' := ih (idx + 1) (fun k c₂ hk => hnm (k + 1) c₂ hk)
    simp [is_allow_loop, h0, ih']

/-- If position `j` holds the first matching instance, the scan loop's
decision is `evalMatched` of that instance at absolute index `idx + j`, and
only position `j` of the table is updated. -/
theorem is_allow_loop_first_match {R : Type} (isMatch : R → String → Bool)
    (now : Nat) (input : String) (l : List (LimitInstance R)) :
    ∀ (idx j : Nat) (c : LimitInstance R),
      l.get? j = some c → isMatch c.regex input = true →
      (∀ k c₂, k < j → l.get? k = some c₂ → isMatch c₂.regex input = false) →
      is_allow_loop isMatch now input idx l =
        ((evalMatched now (idx + j) c).1,
          l.set j (evalMatched now (idx + j) c).2) := by
  induction l with
  | nil => intro idx j c hj _ _; simp at hj
  | cons a rest ih =>
    intro idx j c hj hmatch hbefore
    cases j with
    | zero =>
      have ha : a = c := by simpa using hj
      subst ha
      simp [is_allow_loop, hmatch]
    | succ j' =>
      have hna : isMatch a.regex input = false :=
        hbefore 0 a (Nat.succ_pos j') rfl
      have ih' := ih (idx + 1) j' c hj hmatch
        (fun k c₂ hk hkc => hbefore (k + 1) c₂ (Nat.succ_lt_succ hk) hkc)
      have harith : idx + 1 + j' = idx + (j' + 1) := by omega
      rw [harith] at ih'
      simp [is_allow_loop, hna, ih']

/-- Pointwise effect of one scan: every instance of the resulting table comes
from the same position of the input table, with regex, duration and capacity
unchanged and permits at most `max permits limit_size`. -/
theorem is_allow_loop_get? {R : Type} (isMatch : R → String → Bool)
    (now : Nat) (input : String) (l : List (LimitInstance R)) :
    ∀ (idx k : Nat) (c' : LimitInstance R),
      ((is_allow_loop isMatch now input idx l).2).get? k = some c' →
      ∃ c, l.get? k = some c ∧ c'.regex = c.regex ∧ c'.duration = c.duration ∧
        c'.limit_size = c.limit_size ∧
        c'.permits ≤ max c.permits c.limit_size := by
  induction l with
  | nil => intro idx k c' h; simp [is_allow_loop] at h
  | cons a rest ih =>
    intro idx k c' h
    by_cases hm : isMatch a.regex input
    · simp only [is_allow_loop, hm, if_pos] at h
      cases k with
      | zero =>
        have hc : (evalMatched now idx a).2 = c' := by simpa using h
        obtain ⟨h1, h2, h3, h4⟩ := evalMatched_static now idx a
        rw [hc] at h1 h2 h3 h4
        exact ⟨a, rfl, h1, h2, h3, h4⟩
      | succ k' =>
        have hk : rest.get? k' = some c' := by simpa using h
        exact ⟨c', hk, rfl, rfl, rfl, le_max_left _ _⟩
    · simp only [is_allow_loop, hm, if_neg, Bool.false_eq_true,
        not_false_iff] at h
      cases k with
      | zero =>
        have hc : a = c' := by simpa using h
        subst hc
        exact ⟨a, rfl, rfl, rfl, rfl, le_max_left _ _⟩
      | succ k' =>
        have hk : ((is_allow_loop isMatch now input (idx + 1) rest).2).get? k'
            = some c' := by simpa using h
        exact ih (idx + 1) k' c' hk

/-- Whenever the scan loop denies, the reported index is `some i` with
`idx ≤ i < idx + length`. -/
theorem is_allow_loop_deny {R : Type} (isMatch : R → String → Bool)
    (now : Nat) (input : String) (l : List (LimitInstance R)) :
    ∀ idx : Nat, (is_allow_loop isMatch now input idx l).1.2 = false →
      ∃ i, (is_allow_loop isMatch now input idx l).1.1 = some i ∧
        idx ≤ i ∧ i < idx + l.length := by
  induction l with
  | nil => intro idx h; simp [is_allow_loop] at h
  | cons a rest ih =>
    intro idx h
    by_cases hm : isMatch a.regex input
    · simp only [is_allow_loop, hm, if_pos] at h ⊢
      exact ⟨idx, evalMatched_deny now idx a h, le_refl idx, by simp⟩
    · simp only [is_allow_loop, hm, if_neg, Bool.false_eq_true,
        not_false_iff] at h ⊢
      obtain ⟨i, h1, h2, h3⟩ := ih (idx + 1) h
      exact ⟨i, h1, by omega, by simp; omega⟩

/-- Pointwise effect of a run: after any sequence of operations that did not
panic, every instance of the resulting table comes from the same position of
the starting table, with regex, duration and capacity unchanged, and its
permit count exceeds `max permits limit_size` of the starting instance by at
most the number of releases aimed at that position. -/
theorem runOps_get? {R : Type} (isMatch : R → String → Bool) (ops : List Op) :
    ∀ (l : List (LimitInstance R)) (st' : Limit R),
      runOps isMatch ⟨some l⟩ ops = .ok st' →
      ∃ l', st' = ⟨some l'⟩ ∧
        ∀ k c', l'.get? k = some c' →
          ∃ c, l.get? k = some c ∧ c'.regex = c.regex ∧
            c'.duration = c.duration ∧ c'.limit_size = c.limit_size ∧
            c'.permits ≤ max c.permits c.limit_size + countRelease k ops := by
  induction ops with
  | nil =>
    intro l st' h
    have hst : (⟨some l⟩ : Limit R) = st' := by
      simpa [runOps] using h
    refine ⟨l, hst.symm, ?_⟩
    intro k c' hk
    exact ⟨c', hk, rfl, rfl, rfl, by simp [countRelease]⟩
  | cons op rest ih =>
    intro l st' h
    cases op with
    | eval now input =>
      have h' : runOps isMatch
          (⟨some (is_allow_loop isMatch now input 0 l).2⟩ : Limit R) rest
          = .ok st' := h
      obtain ⟨l', hst, hpt⟩ := ih _ st' h'
      refine ⟨l', hst, ?_⟩
      intro k c' hk
      obtain ⟨c₁, hk₁, e1, e2, e3, hb⟩ := hpt k c' hk
      obtain ⟨c, hk₀, f1, f2, f3, hb₀⟩ :=
        is_allow_loop_get? isMatch now input l 0 k c₁ hk₁
      refine ⟨c, hk₀, e1.trans f1, e2.trans f2, e3.trans f3, ?_⟩
      have hcr : countRelease k (Op.eval now input :: rest)
          = countRelease k rest := rfl
      rw [hcr]
      omega
    | release i =>
      by_cases hi : i < l.length
      · have hstep : stepOp isMatch (⟨some l⟩ : Limit R) (Op.release i)
            = .ok ⟨some (l.set i
              { l.get ⟨i, hi⟩ with
                  permits := (l.get ⟨i, hi⟩).permits + 1 })⟩ := by
          simp [stepOp, add_permits, hi]
        rw [runOps, hstep] at h
        have h' : runOps isMatch (⟨some (l.set i
            { l.get ⟨i, hi⟩ with
                permits := (l.get ⟨i, hi⟩).permits + 1 })⟩ : Limit R) rest
            = .ok st' := h
        obtain ⟨l', hst, hpt⟩ := ih _ st' h'
        refine ⟨l', hst, ?_⟩
        intro k c' hk
        obtain ⟨c₁, hk₁, e1, e2, e3, hb⟩ := hpt k c' hk
        by_cases hki : k = i
        · subst hki
          have hset : (l.set k { l.get ⟨k, hi⟩ with
              permits := (l.get ⟨k, hi⟩).permits + 1 }).get? k
              = some { l.get ⟨k, hi⟩ with
                  permits := (l.get ⟨k, hi⟩).permits + 1 } :=
            List.get?_set_eq_of_lt _ hi
          rw [hset] at hk₁
          obtain rfl := Option.some.inj hk₁
          refine ⟨l.get ⟨k, hi⟩, List.get?_eq_get hi, e1, e2, e3, ?_⟩
          have hcr : countRelease k (Op.release k :: rest)
              = 1 + countRelease k rest := by simp [countRelease]
          rw [hcr]
          have hXp : ({ l.get ⟨k, hi⟩ with
              permits := (l.get ⟨k, hi⟩).permits + 1 } : LimitInstance R).permits
              = (l.get ⟨k, hi⟩).permits + 1 := rfl
          have hXl : ({ l.get ⟨k, hi⟩ with
              permits := (l.get ⟨k, hi⟩).permits + 1 } : LimitInstance R).limit_size
              = (l.get ⟨k, hi⟩).limit_size := rfl
          rw [hXp, hXl] at hb
          omega
        · have hik : i ≠ k := fun he => hki he.symm
          have hset : (l.set i { l.get ⟨i, hi⟩ with
              permits := (l.get ⟨i, hi⟩).permits + 1 }).get? k = l.get? k :=
            List.get?_set_ne _ _ hik
          rw [hset] at hk₁
          have hcr : countRelease k (Op.release i :: rest)
              = countRelease k rest := by simp [countRelease, hik]
          refine ⟨c₁, hk₁, e1, e2, e3, by rw [hcr]; omega⟩
      · have hstep : stepOp isMatch (⟨some l⟩ : Limit R) (Op.release i)
            = .error .indexOutOfBounds := by
          simp [stepOp, add_permits, hi]
        rw [runOps, hstep] at h
        have h' : (Except.error PanicError.indexOutOfBounds
            : Except PanicError (Limit R)) = .ok st' := h
        exact Except.noConfusion h'

/-- A sequence of operations without releases leaves `countRelease` at 0. -/
theorem countRelease_of_no_release (k : Nat) (ops : List Op)
    (h : ∀ op ∈ ops, isRelease op = false) : countRelease k ops = 0 := by
  induction ops with
  | nil => rfl
  | cons op rest ih =>
    cases op with
    | eval now input =>
      simp [countRelease, ih (fun o ho => h o (List.mem_cons_of_mem _ ho))]
    | release i =>
      have := h (Op.release i) (List.mem_cons_self _ _)
      simp [isRelease] at this

/-- C8: a `Limit` built with no rule table (`instances = None`) or with an
empty rule list admits every input with matched index `None` and leaves the
state unchanged. -/
theorem C8_empty_config_pass_through {R : Type} (isMatch : R → String → Bool)
    (now : Nat) (input : String) :
    is_allow isMatch now (⟨none⟩ : Limit R) input = ((none, true), ⟨none⟩) ∧
    is_allow isMatch now (⟨some []⟩ : Limit R) input
      = ((none, true), ⟨some []⟩) :=
  ⟨rfl, rfl⟩

/-- C9: whenever `is_allow` denies a request, the matched index is `some i`
with `i` a valid position of the rule table; equivalently a `None` matched
index always comes with `allow = true`. -/
theorem C9_deny_has_valid_index {R : Type} (isMatch : R → String → Bool)
    (now : Nat) (st : Limit R) (input : String)
    (hdeny : (is_allow isMatch now st input).1.2 = false) :
    ∃ i l, st.instances = some l ∧
      (is_allow isMatch now st input).1.1 = some i ∧ i < l.length := by
  obtain ⟨inst⟩ := st
  cases inst with
  | none => simp [is_allow] at hdeny
  | some l =>
    have hd : (is_allow_loop isMatch now input 0 l).1.2 = false := hdeny
    obtain ⟨i, h1, _, h3⟩ := is_allow_loop_deny isMatch now input l 0 hd
    exact ⟨i, l, rfl, h1, by omega⟩

/-- Witness for C9: one rule `"a"` with capacity 0; the request `"a"` is
denied and the matched index 0 is a valid position. -/
theorem C9_witness :
    ∃ i l, (⟨some [⟨"a", 0, 0, 10, none⟩]⟩ : Limit String).instances = some l ∧
      (is_allow eqMatch 0 ⟨some [⟨"a", 0, 0, 10, none⟩]⟩ "a").1.1 = some i ∧
      i < l.length :=
  C9_deny_has_valid_index eqMatch 0 ⟨some [⟨"a", 0, 0, 10, none⟩]⟩ "a"
    (by decide)

/-- C10: `add_permits` panics (`unwrap` on a missing table, or out-of-bounds
indexing) when there is no rule table or the index is not below the table
length; it succeeds exactly when the table exists and the index is in bounds,
adding one permit to that rule. -/
theorem C10_add_permits_panics {R : Type} (st : Limit R) (idx : Nat) :
    (st.instances = none → add_permits st idx = .error .unwrapNone) ∧
    (∀ l, st.instances = some l → l.length ≤ idx →
      add_permits st idx = .error .indexOutOfBounds) ∧
    (∀ l (h : idx < l.length), st.instances = some l →
      add_permits st idx = .ok ⟨some (l.set idx
        { l.get ⟨idx, h⟩ with
            permits := (l.get ⟨idx, h⟩).permits + 1 })⟩) := by
  obtain ⟨inst⟩ := st
  cases inst with
  | none =>
    refine ⟨fun _ => rfl, ?_, ?_⟩
    · intro l hl; exact absurd hl (by simp)
    · intro l h hl; exact absurd hl (by simp)
  | some l₀ =>
    refine ⟨fun h => absurd h (by simp), ?_, ?_⟩
    · intro l hl hlen
      obtain rfl : l₀ = l := by simpa using hl
      simp [add_permits, Nat.not_lt.mpr hlen]
    · intro l h hl
      obtain rfl : l₀ = l := by simpa using hl
      simp [add_permits, h]

/-- Witness for C10: all three branches at concrete states. -/
theorem C10_witness :
    add_permits (⟨none⟩ : Limit String) 0 = .error .unwrapNone ∧
    add_permits (⟨some []⟩ : Limit String) 0 = .error .indexOutOfBounds ∧
    add_permits (⟨some [⟨"a", 1, 1, 5, none⟩]⟩ : Limit String) 0
      = .ok ⟨some [⟨"a", 1, 2, 5, none⟩]⟩ := by
  refine ⟨(C10_add_permits_panics ⟨none⟩ 0).1 rfl,
    (C10_add_permits_panics ⟨some []⟩ 0).2.1 [] rfl (by decide), ?_⟩
  have h := (C10_add_permits_panics
    (⟨some [⟨"a", 1, 1, 5, none⟩]⟩ : Limit String) 0).2.2
    [⟨"a", 1, 1, 5, none⟩] (by decide) rfl
  exact h

/-- C3: when the first matching rule has `start_at = None`, `is_allow` sets
`start_at = Some(now)` and tries one non-blocking acquisition: with no permit
left it returns `(Some j, false)`, otherwise it consumes one permit and
returns `(Some j, true)`; `start_at` becomes `Some(now)` in both outcomes. -/
theorem C3_window_opens {R : Type} (isMatch : R → String → Bool)
    (now : Nat) (input : String) (l : List (LimitInstance R)) (j : Nat)
    (c : LimitInstance R) (hj : l.get? j = some c)
    (hmatch : isMatch c.regex input = true)
    (hbefore : ∀ k c₂, k < j → l.get? k = some c₂ →
      isMatch c₂.regex input = false)
    (hnone : c.start_at = none) :
    (c.permits = 0 → is_allow isMatch now ⟨some l⟩ input
      = ((some j, false),
        ⟨some (l.set j { c with start_at := some now })⟩)) ∧
    (0 < c.permits → is_allow isMatch now ⟨some l⟩ input
      = ((some j, true), ⟨some (l.set j
          { c with start_at := some now, permits := c.permits - 1 })⟩)) := by
  have hloop := is_allow_loop_first_match isMatch now input l 0 j c hj
    hmatch hbefore
  rw [Nat.zero_add] at hloop
  constructor
  · intro hp
    have he : evalMatched now j c
        = ((some j, false), { c with start_at := some now }) := by
      simp [evalMatched, hnone, hp]
    simp [is_allow, hloop, he]
  · intro hp
    have he : evalMatched now j c
        = ((some j, true),
          { c with start_at := some now, permits := c.permits - 1 }) := by
      simp [evalMatched, hnone, Nat.pos_iff_ne_zero.mp hp]
    simp [is_allow, hloop, he]

/-- Witness for C3: rule `"a"` with capacity 2, fresh window; request `"a"`
at time 7 is admitted, one permit is consumed and `start_at` is set. -/
theorem C3_witness :
    is_allow eqMatch 7 ⟨some [⟨"a", 2, 2, 10, none⟩]⟩ "a"
      = ((some 0, true), ⟨some [⟨"a", 2, 1, 10, some 7⟩]⟩) := by
  have h := (C3_window_opens eqMatch 7 "a" [⟨"a", 2, 2, 10, none⟩] 0
    ⟨"a", 2, 2, 10, none⟩ rfl (by decide)
    (fun k c₂ hk _ => absurd hk (Nat.not_lt_zero k)) rfl).2 (by decide)
  exact h

/-- C4: when the first matching rule's window has expired
(`now - t > duration`), `is_allow` resets the rule (`start_at = None`,
permits back to full capacity) and returns `(None, true)`: the observing
request is admitted without a matched index and without consuming a permit,
and the rule's budget is full capacity afterwards. -/
theorem C4_window_expired_reset {R : Type} (isMatch : R → String → Bool)
    (now : Nat) (input : String) (l : List (LimitInstance R)) (j : Nat)
    (c : LimitInstance R) (t : Nat) (hj : l.get? j = some c)
    (hmatch : isMatch c.regex input = true)
    (hbefore : ∀ k c₂, k < j → l.get? k = some c₂ →
      isMatch c₂.regex input = false)
    (ht : c.start_at = some t) (hexp : now - t > c.duration) :
    is_allow isMatch now ⟨some l⟩ input
      = ((none, true), ⟨some (l.set j
          { c with start_at := none, permits := c.limit_size })⟩) := by
  have hloop := is_allow_loop_first_match isMatch now input l 0 j c hj
    hmatch hbefore
  rw [Nat.zero_add] at hloop
  have he : evalMatched now j c
      = ((none, true), { c with start_at := none, permits := c.limit_size }) := by
    simp [evalMatched, ht, hexp]
  simp [is_allow, hloop, he]

/-- Witness for C4: rule `"a"` with capacity 3, exhausted permits, window
opened at 2 and duration 10; the request at time 20 observes expiry, is
admitted with no index, and the rule resets to full capacity. -/
theorem C4_witness :
    is_allow eqMatch 20 ⟨some [⟨"a", 3, 0, 10, some 2⟩]⟩ "a"
      = ((none, true), ⟨some [⟨"a", 3, 3, 10, none⟩]⟩) := by
  have h := C4_window_expired_reset eqMatch 20 "a" [⟨"a", 3, 0, 10, some 2⟩] 0
    ⟨"a", 3, 0, 10, some 2⟩ 2 rfl (by decide)
    (fun k c₂ hk _ => absurd hk (Nat.not_lt_zero k)) rfl (by decide)
  exact h

/-- C5: the scan stops at the first matching rule: the decision and the
updated table do not depend on the rules declared after it (`l₂` is returned
untouched and unread), every position other than the first match keeps its
state, and when no rule matches the result is `(None, true)` with the whole
table unchanged. -/
theorem C5_first_match_stops {R : Type} (isMatch : R → String → Bool)
    (now : Nat) (input : String) (l₁ l₂ : List (LimitInstance R)) (j : Nat)
    (c : LimitInstance R) (hj : l₁.get? j = some c)
    (hmatch : isMatch c.regex input = true)
    (hbefore : ∀ k c₂, k < j → l₁.get? k = some c₂ →
      isMatch c₂.regex input = false) :
    (is_allow isMatch now ⟨some (l₁ ++ l₂)⟩ input
      = ((is_allow isMatch now ⟨some l₁⟩ input).1,
        ⟨some ((is_allow_loop isMatch now input 0 l₁).2 ++ l₂)⟩)) ∧
    (∀ k, k ≠ j →
      ((is_allow_loop isMatch now input 0 (l₁ ++ l₂)).2).get? k
        = (l₁ ++ l₂).get? k) ∧
    (∀ l : List (LimitInstance R),
      (∀ k c₂, l.get? k = some c₂ → isMatch c₂.regex input = false) →
      is_allow isMatch now ⟨some l⟩ input = ((none, true), ⟨some l⟩)) := by
  have hlt : j < l₁.length := (List.get?_eq_some.mp hj).1
  have hj' : (l₁ ++ l₂).get? j = some c := by
    rw [List.get?_append hlt]; exact hj
  have hbefore' : ∀ k c₂, k < j → (l₁ ++ l₂).get? k = some c₂ →
      isMatch c₂.regex input = false := by
    intro k c₂ hk hkc
    rw [List.get?_append (lt_trans hk hlt)] at hkc
    exact hbefore k c₂ hk hkc
  have hloopA := is_allow_loop_first_match isMatch now input (l₁ ++ l₂) 0 j c
    hj' hmatch hbefore'
  have hloopB := is_allow_loop_first_match isMatch now input l₁ 0 j c hj
    hmatch hbefore
  rw [Nat.zero_add] at hloopA hloopB
  have hset : (l₁ ++ l₂).set j (evalMatched now j c).2
      = l₁.set j (evalMatched now j c).2 ++ l₂ := by
    rw [List.set_append, if_pos hlt]
  refine ⟨?_, ?_, ?_⟩
  · simp [is_allow, hloopA, hloopB, hset]
  · intro k hk
    rw [hloopA]
    exact List.get?_set_ne _ _ (fun he => hk he.symm)
  · intro l hnm
    simp [is_allow, is_allow_loop_no_match isMatch now input l 0 hnm]

/-- Witness for C5: rule 0 `"a"` (capacity 1) matches first; the later rule,
although it would also match `"a"`, keeps its state; a non-matching table is
untouched. -/
theorem C5_witness :
    (is_allow eqMatch 4 ⟨some [⟨"a", 1, 1, 9, none⟩, ⟨"a", 5, 5, 9, none⟩]⟩ "a"
      = ((is_allow eqMatch 4 ⟨some [⟨"a", 1, 1, 9, none⟩]⟩ "a").1,
        ⟨some ((is_allow_loop eqMatch 4 "a" 0 [⟨"a", 1, 1, 9, none⟩]).2
          ++ [⟨"a", 5, 5, 9, none⟩])⟩)) ∧
    ((is_allow_loop eqMatch 4 "a" 0
        [⟨"a", 1, 1, 9, none⟩, ⟨"a", 5, 5, 9, none⟩]).2).get? 1
      = [(⟨"a", 1, 1, 9, none⟩ : LimitInstance String),
          ⟨"a", 5, 5, 9, none⟩].get? 1 ∧
    is_allow eqMatch 4 ⟨some [⟨"b", 2, 2, 9, none⟩]⟩ "a"
      = ((none, true), ⟨some [⟨"b", 2, 2, 9, none⟩]⟩) := by
  have h := C5_first_match_stops eqMatch 4 "a" [⟨"a", 1, 1, 9, none⟩]
    [⟨"a", 5, 5, 9, none⟩] 0 ⟨"a", 1, 1, 9, none⟩ rfl (by decide)
    (fun k c₂ hk _ => absurd hk (Nat.not_lt_zero k))
  refine ⟨h.1, h.2.1 1 (by decide), h.2.2 [⟨"b", 2, 2, 9, none⟩] ?_⟩
  intro k c₂ hk
  match k, hk with
  | 0, hk => obtain rfl := Option.some.inj hk; decide

/-- C6: `handle` returns `LimitPluginReject` and never invokes the downstream
handler when admission is denied (the result is the same for every downstream
handler); when admission is allowed it invokes the handler on the original
input, returning `(matched index, output)` on success, and on handler failure
it returns the wrapped handler error, which carries no matched index. -/
theorem C6_handle_contract {R I E O : Type} (isMatch : R → String → Bool)
    (asRef : I → String) (now : Nat) (inner : I → Except E O)
    (st : Limit R) (input : I) :
    ((is_allow isMatch now st (asRef input)).1.2 = false →
      handle isMatch asRef now inner st input
        = (.error .limitPluginReject,
          (is_allow isMatch now st (asRef input)).2) ∧
      ∀ inner₂ : I → Except E O,
        handle isMatch asRef now inner₂ st input
          = handle isMatch asRef now inner st input) ∧
    ((is_allow isMatch now st (asRef input)).1.2 = true →
      (∀ out, inner input = .ok out →
        handle isMatch asRef now inner st input
          = (.ok ((is_allow isMatch now st (asRef input)).1.1, out),
            (is_allow isMatch now st (asRef input)).2)) ∧
      (∀ e, inner input = .error e →
        handle isMatch asRef now inner st input
          = (.error (.inner e),
            (is_allow isMatch now st (asRef input)).2))) := by
  constructor
  · intro hd
    constructor
    · simp [handle, hd]
    · intro inner₂; simp [handle, hd]
  · intro ha
    constructor
    · intro out hout; simp [handle, ha, hout]
    · intro e he; simp [handle, ha, he]

/-- Witness for C6: a capacity-0 rule rejects without calling the handler; a
capacity-1 rule admits and returns the handler output with index 0; a failing
handler's error is wrapped with no index attached. -/
theorem C6_witness :
    handle eqMatch id 0 (fun s => (Except.ok (s ++ "!") : Except String String))
      (⟨some [⟨"a", 0, 0, 10, none⟩]⟩ : Limit String) "a"
      = (.error .limitPluginReject, ⟨some [⟨"a", 0, 0, 10, some 0⟩]⟩) ∧
    handle eqMatch id 0 (fun s => (Except.ok (s ++ "!") : Except String String))
      (⟨some [⟨"a", 1, 1, 10, none⟩]⟩ : Limit String) "a"
      = (.ok (some 0, "a!"), ⟨some [⟨"a", 1, 0, 10, some 0⟩]⟩) ∧
    handle eqMatch id 0 (fun _ => (Except.error "boom" : Except String String))
      (⟨some [⟨"a", 1, 1, 10, none⟩]⟩ : Limit String) "a"
      = (.error (.inner "boom"), ⟨some [⟨"a", 1, 0, 10, some 0⟩]⟩) := by
  refine ⟨?_, ?_, ?_⟩
  · exact ((C6_handle_contract eqMatch id 0 (fun s => (Except.ok (s ++ "!") : Except String String))
      ⟨some [⟨"a", 0, 0, 10, none⟩]⟩ "a").1 (by decide)).1
  · exact ((C6_handle_contract eqMatch id 0 (fun s => (Except.ok (s ++ "!") : Except String String))
      ⟨some [⟨"a", 1, 1, 10, none⟩]⟩ "a").2 (by decide)).1 "a!" rfl
  · exact ((C6_handle_contract eqMatch id 0
      (fun _ => (Except.error "boom" : Except String String))
      ⟨some [⟨"a", 1, 1, 10, none⟩]⟩ "a").2 (by decide)).2 "boom" rfl

/-- C7: a capacity-0 rule (freshly built: `limit_size = 0`, `permits = 0`)
rejects, with `(Some j, false)`, every request that first-matches it while its
window is open — including the request that opens the window — after any
sequence of admission-gate evaluations (no releases). -/
theorem C7_capacity_zero_rejects {R : Type} (isMatch : R → String → Bool)
    (l l' : List (LimitInstance R)) (ops : List Op) (j : Nat)
    (c c' : LimitInstance R) (now : Nat) (input : String)
    (hops : ∀ op ∈ ops, isRelease op = false)
    (hrun : runOps isMatch ⟨some l⟩ ops = .ok ⟨some l'⟩)
    (hj : l.get? j = some c) (hcap : c.limit_size = 0)
    (hperm : c.permits = 0) (hj' : l'.get? j = some c')
    (hmatch : isMatch c'.regex input = true)
    (hbefore : ∀ k c₂, k < j → l'.get? k = some c₂ →
      isMatch c₂.regex input = false)
    (hopen : c'.start_at = none ∨
      ∃ t, c'.start_at = some t ∧ ¬ now - t > c'.duration) :
    (is_allow isMatch now ⟨some l'⟩ input).1 = (some j, false) := by
  obtain ⟨l'', hst, hpt⟩ := runOps_get? isMatch ops l ⟨some l'⟩ hrun
  obtain rfl : l' = l'' := by
    have := congrArg Limit.instances hst
    simpa using this
  obtain ⟨c₀, hk₀, _, _, _, hb⟩ := hpt j c' hj'
  rw [hj] at hk₀
  obtain rfl := Option.some.inj hk₀
  have hcr : countRelease j ops = 0 := countRelease_of_no_release j ops hops
  have hp' : c'.permits = 0 := by
    rw [hcap, hperm, hcr] at hb
    omega
  have hloop := is_allow_loop_first_match isMatch now input l' 0 j c' hj'
    hmatch hbefore
  rw [Nat.zero_add] at hloop
  have he : (evalMatched now j c').1 = (some j, false) := by
    rcases hopen with hnone | ⟨t, ht, hnexp⟩
    · simp [evalMatched, hnone, hp']
    · simp [evalMatched, ht, hnexp, hp']
  simp [is_allow, hloop, he]

/-- Witness for C7: capacity-0 rule `"a"`; one earlier request at time 0
opened the window; the request at time 5 (window still active) is rejected
with index 0. -/
theorem C7_witness :
    (is_allow eqMatch 5 ⟨some [⟨"a", 0, 0, 10, some 0⟩]⟩ "a").1
      = (some 0, false) := by
  have h := C7_capacity_zero_rejects eqMatch [⟨"a", 0, 0, 10, none⟩]
    [⟨"a", 0, 0, 10, some 0⟩] [Op.eval 0 "a"] 0 ⟨"a", 0, 0, 10, none⟩
    ⟨"a", 0, 0, 10, some 0⟩ 5 "a" (by decide) rfl rfl rfl rfl rfl (by decide)
    (fun k c₂ hk _ => absurd hk (Nat.not_lt_zero k))
    (Or.inr ⟨0, rfl, by decide⟩)
  exact h

/-- Counterexample to C1 as stated: the claim says a rule's available permits
never exceed its configured capacity under any sequence of gate evaluations
and releases. From a fresh table with one rule of capacity 1 (permits 1), a
single `release 0` drives the permit count to 2 > 1: `add_permits` does not
clamp at `limit_size`. -/
theorem C1_counterexample :
    runOps eqMatch ⟨some [⟨"a", 1, 1, 10, none⟩]⟩ [Op.release 0]
      = .ok ⟨some [⟨"a", 1, 2, 10, none⟩]⟩ ∧ 1 < 2 :=
  ⟨rfl, by decide⟩

/-- C1 amended: `release(idx)` increments rule `idx`'s available permits by
exactly one, unconditionally — it is not clamped at capacity. Consequently the
invariant that holds is: starting from a table whose permits are within
capacity, after any non-panicking sequence of gate evaluations and releases
each rule's permits never exceed its (unchanged) capacity plus the number of
`release` calls aimed at it; with no releases, permits never exceed
capacity. -/
theorem C1_release_bound {R : Type} (isMatch : R → String → Bool)
    (l : List (LimitInstance R)) (ops : List Op) (st' : Limit R)
    (hinit : ∀ c ∈ l, c.permits ≤ c.limit_size)
    (hrun : runOps isMatch ⟨some l⟩ ops = .ok st') :
    (∃ l', st' = ⟨some l'⟩ ∧
      ∀ k c' c, l'.get? k = some c' → l.get? k = some c →
        c'.limit_size = c.limit_size ∧
        c'.permits ≤ c.limit_size + countRelease k ops) ∧
    (∀ (l₂ : List (LimitInstance R)) (i : Nat) (h : i < l₂.length),
      add_permits ⟨some l₂⟩ i = .ok ⟨some (l₂.set i
        { l₂.get ⟨i, h⟩ with
            permits := (l₂.get ⟨i, h⟩).permits + 1 })⟩) := by
  constructor
  · obtain ⟨l', hst, hpt⟩ := runOps_get? isMatch ops l st' hrun
    refine ⟨l', hst, ?_⟩
    intro k c' c hk' hk
    obtain ⟨c₀, hk₀, _, _, e3, hb⟩ := hpt k c' hk'
    rw [hk] at hk₀
    obtain rfl := Option.some.inj hk₀
    have hcle : c.permits ≤ c.limit_size := hinit c (List.get?_mem hk)
    exact ⟨e3, by omega⟩
  · intro l₂ i h
    simp [add_permits, h]

/-- Witness for C1 amended: capacity-2 rule; an admission consumes one permit
and a release returns it; permits (2) stay within capacity + releases (3). -/
theorem C1_release_bound_witness :
    (∃ l', (⟨some [⟨"a", 2, 2, 10, some 0⟩]⟩ : Limit String) = ⟨some l'⟩ ∧
      ∀ k c' c, l'.get? k = some c' →
        [(⟨"a", 2, 2, 10, none⟩ : LimitInstance String)].get? k = some c →
        c'.limit_size = c.limit_size ∧
        c'.permits ≤ c.limit_size
          + countRelease k [Op.eval 0 "a", Op.release 0]) ∧
    (∀ (l₂ : List (LimitInstance String)) (i : Nat) (h : i < l₂.length),
      add_permits ⟨some l₂⟩ i = .ok ⟨some (l₂.set i
        { l₂.get ⟨i, h⟩ with
            permits := (l₂.get ⟨i, h⟩).permits + 1 })⟩) :=
  C1_release_bound eqMatch [⟨"a", 2, 2, 10, none⟩]
    [Op.eval 0 "a", Op.release 0] ⟨some [⟨"a", 2, 2, 10, some 0⟩]⟩
    (by decide) rfl

/-- Counterexample to C2 as stated: the claim says construction fails with
`ConfigError::InvalidPattern` on a pattern that does not compile. The source
instead panics (`Regex::new(&c.regex).unwrap()`); no value of the spec's
error is produced — the failure is a panic, a distinct outcome. -/
theorem C2_counterexample :
    create_instances compileNoParen (some [⟨"(", 3, 50⟩])
      = (.error .panicked
        : Except ConstructionError (Option (List (LimitInstance String)))) ∧
    (Except.error ConstructionError.panicked
        : Except ConstructionError (Option (List (LimitInstance String))))
      ≠ .error .invalidPattern := by
  refine ⟨rfl, fun h => ?_⟩
  exact ConstructionError.noConfusion (Except.error.inj h)

/-- Helper for C2: a rule list containing a pattern that fails to compile
makes the instance-building loop abort with the `unwrap` panic. -/
theorem create_instances_list_panics {R : Type} (compile : String → Option R)
    (c : LimitConfig) (hfail : compile c.regex = none) :
    ∀ cfgs : List LimitConfig, c ∈ cfgs →
      create_instances_list compile cfgs = .error .panicked := by
  intro cfgs
  induction cfgs with
  | nil => intro hc; cases hc
  | cons a rest ih =>
    intro hc
    rcases List.mem_cons.mp hc with rfl | hmem
    · simp [create_instances_list, hfail]
    · cases ha : compile a.regex with
      | none => simp [create_instances_list, ha]
      | some r => simp [create_instances_list, ha, ih hmem, Except.map]

/-- C2 amended: for every rule list containing a rule whose pattern does not
compile, table construction aborts — with the `unwrap` panic, not with a
`ConfigError::InvalidPattern` value — and no table is created; the bad rule
is not silently dropped. -/
theorem C2_bad_pattern_aborts {R : Type} (compile : String → Option R)
    (cfgs : List LimitConfig) (c : LimitConfig) (hc : c ∈ cfgs)
    (hfail : compile c.regex = none) :
    create_instances compile (some cfgs)
      = (.error .panicked
        : Except ConstructionError (Option (List (LimitInstance R)))) := by
  simp [create_instances, Except.map,
    create_instances_list_panics compile c hfail cfgs hc]

/-- Witness for C2 amended: a good rule followed by the bad pattern `"("`
still aborts construction. -/
theorem C2_bad_pattern_aborts_witness :
    create_instances compileNoParen (some [⟨"x", 1, 5⟩, ⟨"(", 3, 50⟩])
      = (.error .panicked
        : Except ConstructionError (Option (List (LimitInstance String)))) :=
  C2_bad_pattern_aborts compileNoParen [⟨"x", 1, 5⟩, ⟨"(", 3, 50⟩]
    ⟨"(", 3, 50⟩ (by decide) (by decide)
